import Mathlib

/-!
# Nestium — node/agent trust and relay layer, shallow embedding

A shallow embedding of the HMAC request-signing protocol and the
streaming-relay state machine of the Nestium control plane, together with
proofs about the embedded operations.

Sources embedded here:
* `src/apps/agent/security/hmac.ts` — `safeEqualHex` (Node `Buffer.from(.., "hex")`
  decoding plus `crypto.timingSafeEqual`);
* `src/apps/agent/security/authHook.ts` — `hmacAuthHook`, the agent-side verifier;
* `src/apps/panel-api/src/nodes/agent/agent-client.ts` — `agentSignedHeaders`, the signer;
* `src/apps/panel-api/src/servers/servers.gateway.ts` — `handleConnection`
  (one-time token consumption) and the `proxyAll` session (teardown and
  reconnect guards, browser frame handling);
* `src/apps/agent/index.ts` — the log-tail cursor (`updateSinceFromText`),
  the reattach options of `attachOnce`, `parseTail`, and the console-stream
  frame handler.

Cryptographic primitives (`crypto.createHash("sha256")`,
`crypto.createHmac("sha256", ..)`) and the JS runtime builtins `JSON.parse` and
`Date.parse` are runtime-library functions, not repository code; they are
modelled as explicit function parameters of the embedded operations.
-/

namespace Nestium

/-- Decimal digit-string parsing (the all-digits fragment of JS `Number`). -/
def digitsToNat? (l : List Char) : Option Nat :=
  match l with
  | [] => none
  | _ =>
    if l.all Char.isDigit
    then some (l.foldl (fun n c => n * 10 + (c.toNat - '0'.toNat)) 0)
    else none

/-- Models the JS `Number(string)` conversion on the header strings this
protocol handles: the empty string converts to `0`, an optional sign followed
by decimal digits converts to the signed integer value, and anything else is
treated as non-finite (`none`), the case `Number.isFinite` rejects. -/
def jsNumber (s : String) : Option Int :=
  match s.data with
  | [] => some 0
  | '-' :: rest => (digitsToNat? rest).map (fun n => -(n : Int))
  | '+' :: rest => (digitsToNat? rest).map (fun n => (n : Int))
  | l => (digitsToNat? l).map (fun n => (n : Int))

/-- The value of one hex digit as decoded by Node `Buffer.from(s, "hex")`:
the digits `0`-`9` and the letters `a`-`f` / `A`-`F`, case-insensitively. -/
def hexVal (c : Char) : Option Nat :=
  if '0' ≤ c ∧ c ≤ '9' then some (c.toNat - '0'.toNat)
  else if 'a' ≤ c ∧ c ≤ 'f' then some (c.toNat - 'a'.toNat + 10)
  else if 'A' ≤ c ∧ c ≤ 'F' then some (c.toNat - 'A'.toNat + 10)
  else none

/-- Node `Buffer.from(s, "hex")` byte decoding: consumes hex-digit pairs left
to right and truncates at the first character pair that is not two hex
digits (including a dangling odd final digit). -/
def hexDecodeList : List Char → List Nat
  | c1 :: c2 :: rest =>
    match hexVal c1, hexVal c2 with
    | some hi, some lo => (16 * hi + lo) :: hexDecodeList rest
    | _, _ => []
  | _ => []

/-- Byte decoding of a hex string, per Node `Buffer.from(s, "hex")`. -/
def hexDecode (s : String) : List Nat :=
  hexDecodeList s.data

/-- `safeEqualHex` from `src/apps/agent/security/hmac.ts`: decode both strings
as hex byte buffers, compare lengths first, then compare the bytes
(`crypto.timingSafeEqual` on equal-length buffers is byte equality). -/
def safeEqualHex (a b : String) : Bool :=
  let ab := hexDecode a
  let bb := hexDecode b
  if ab.length ≠ bb.length then false else ab == bb

/-- A string made of hex digits only, with even length — the shape of every
`digest("hex")` output (64 lowercase hex characters). -/
def HexStr (s : String) : Prop :=
  (s.data.all (fun c => (hexVal c).isSome)) = true ∧ s.data.length % 2 = 0

instance (s : String) : Decidable (HexStr s) := by
  unfold HexStr; infer_instance

/-- The enrolled agent identity (`data/identity.json`). -/
structure AgentIdentity where
  nodeId : String
  sharedSecret : String
  deriving DecidableEq

/-- The header set produced by the signer. -/
structure SignedHeaders where
  nodeId : String
  ts : String
  bodyHash : String
  sig : String
  deriving DecidableEq

/-- The canonical signing string built identically by signer and verifier:
`timestamp.METHOD.pathOnly.bodyHash`. -/
def signingString (ts method pathOnly bodyHash : String) : String :=
  ts ++ "." ++ method ++ "." ++ pathOnly ++ "." ++ bodyHash

/-- Characters before the first occurrence of `sep`. -/
def takeUntilChar (sep : Char) : List Char → List Char
  | [] => []
  | c :: rest => if c = sep then [] else c :: takeUntilChar sep rest

/-- The part of a URL before the first `?`, i.e. JS `url.split("?")[0]`. -/
def pathOnly (url : String) : String :=
  String.mk (takeUntilChar '?' url.data)

/-- ASCII uppercasing, JS `String.prototype.toUpperCase` on the method names
this protocol handles. -/
def jsToUpper (s : String) : String :=
  String.mk (s.data.map Char.toUpper)

/-- `agentSignedHeaders` from
`src/apps/panel-api/src/nodes/agent/agent-client.ts`: uppercase the method,
render `Date.now()` (`nowMs`) as a decimal string, hash the body string,
strip the query from the path, and HMAC the canonical string.  `sha` and
`hmac` are the runtime crypto primitives, passed explicitly. -/
def agentSignedHeaders (sha : String → String) (hmac : String → String → String)
    (nodeId sharedSecret method path bodyStr : String) (nowMs : Nat) : SignedHeaders :=
  let m := jsToUpper method
  let ts := toString nowMs
  let bodyHash := sha bodyStr
  let p := pathOnly path
  { nodeId := nodeId
    ts := ts
    bodyHash := bodyHash
    sig := hmac sharedSecret (signingString ts m p bodyHash) }

/-- An inbound agent request as seen by the verifier hook: the URL (with query
string), the method, the four auth headers (absent or non-string headers are
`none`), and the raw body string (`getRawBody`). -/
structure AgentRequest where
  url : String
  method : String
  nodeIdHeader : Option String
  tsHeader : Option String
  bodyHashHeader : Option String
  sigHeader : Option String
  body : String
  deriving DecidableEq

/-- Outcome of the verifier hook, one constructor per `reply.code(..).send`
site of `hmacAuthHook` plus `ok` for falling through to the handler. -/
inductive AuthResult where
  | ok
  | notEnrolled
  | missingHeaders
  | invalidNodeId
  | invalidTimestamp
  | timestampOutOfRange
  | bodyHashMismatch
  | badSignature
  deriving DecidableEq

/-- `hmacAuthHook` from `src/apps/agent/security/authHook.ts`, the agent-side
verifier: health exemption, enrollment check, header presence, node-id match,
timestamp parse, replay window, body hash, signature.  `identity` is the
loaded `identity.json` (or `none`), `now` is `Date.now()` at verification
time, `sha`/`hmac` are the runtime crypto primitives. -/
def hmacAuthHook (sha : String → String) (hmac : String → String → String)
    (identity : Option AgentIdentity) (now : Int) (req : AgentRequest) : AuthResult :=
  if req.url = "/health" then .ok
  else
    match identity with
    | none => .notEnrolled
    | some id =>
      match req.nodeIdHeader, req.tsHeader, req.bodyHashHeader, req.sigHeader with
      | some nodeId, some ts, some bodyHash, some sig =>
        if nodeId ≠ id.nodeId then .invalidNodeId
        else
          match jsNumber ts with
          | none => .invalidTimestamp
          | some tsNum =>
            if 60000 < (now - tsNum).natAbs then .timestampOutOfRange
            else if sha req.body ≠ bodyHash then .bodyHashMismatch
            else
              let m := jsToUpper (if req.method = "" then "GET" else req.method)
              let p := pathOnly req.url
              if safeEqualHex (hmac id.sharedSecret (signingString ts m p bodyHash)) sig
              then .ok else .badSignature
      | _, _, _, _ => .missingHeaders

/-- The HTTP status each rejecting branch of `hmacAuthHook` replies with
(`none` when the hook falls through to the handler). -/
def rejectionStatus : AuthResult → Option Nat
  | .ok => none
  | .notEnrolled => some 503
  | _ => some 401

/-- Dispatch of a protected route through the `preHandler` hook: a rejection
short-circuits with its status and the handler never runs; otherwise the
handler runs and produces its own status.  Returns (status, handlerRan). -/
def runProtected (handlerStatus : Nat) (r : AuthResult) : Nat × Bool :=
  match rejectionStatus r with
  | some s => (s, false)
  | none => (handlerStatus, true)

/-- A request assembled exactly from the signer's output: the URL is the
signed path, the four headers come from `agentSignedHeaders`, and the body is
the signed body string. -/
def mkSignedRequest (sha : String → String) (hmac : String → String → String)
    (id : AgentIdentity) (nowMs : Nat) (method path bodyStr : String) : AgentRequest :=
  let h := agentSignedHeaders sha hmac id.nodeId id.sharedSecret method path bodyStr nowMs
  { url := path
    method := method
    nodeIdHeader := some h.nodeId
    tsHeader := some h.ts
    bodyHashHeader := some h.bodyHash
    sigHeader := some h.sig
    body := bodyStr }

/-! ### The verifier as a prioritised check list

Each check of `hmacAuthHook` restated independently of the others, so that
the sequential cascade can be related to an explicit priority order. -/

/-- Check 1: all four auth headers present. -/
def checkHeaders (req : AgentRequest) : Option AuthResult :=
  match req.nodeIdHeader, req.tsHeader, req.bodyHashHeader, req.sigHeader with
  | some _, some _, some _, some _ => none
  | _, _, _, _ => some .missingHeaders

/-- Check 2: the claimed node id matches the enrolled identity. -/
def checkNodeId (id : AgentIdentity) (req : AgentRequest) : Option AuthResult :=
  match req.nodeIdHeader with
  | some nodeId => if nodeId ≠ id.nodeId then some .invalidNodeId else none
  | none => none

/-- Check 3: the timestamp header parses to a finite number. -/
def checkTimestampParse (req : AgentRequest) : Option AuthResult :=
  match req.tsHeader with
  | some ts => match jsNumber ts with
    | none => some .invalidTimestamp
    | some _ => none
  | none => none

/-- Check 4: the timestamp lies within the 60 s replay window. -/
def checkReplayWindow (now : Int) (req : AgentRequest) : Option AuthResult :=
  match req.tsHeader with
  | some ts => match jsNumber ts with
    | some tsNum =>
      if 60000 < (now - tsNum).natAbs then some .timestampOutOfRange else none
    | none => none
  | none => none

/-- Check 5: the claimed body hash matches the hash of the received body. -/
def checkBodyHash (sha : String → String) (req : AgentRequest) : Option AuthResult :=
  match req.bodyHashHeader with
  | some bodyHash => if sha req.body ≠ bodyHash then some .bodyHashMismatch else none
  | none => none

/-- Check 6: the claimed signature matches the recomputed one (the signing
string embeds the claimed body-hash header, as in the source). -/
def checkSignature (hmac : String → String → String)
    (id : AgentIdentity) (req : AgentRequest) : Option AuthResult :=
  match req.tsHeader, req.bodyHashHeader, req.sigHeader with
  | some ts, some bodyHash, some sig =>
    let m := jsToUpper (if req.method = "" then "GET" else req.method)
    if safeEqualHex (hmac id.sharedSecret (signingString ts m (pathOnly req.url) bodyHash)) sig
    then none else some .badSignature
  | _, _, _ => none

/-- The checks in the order the code performs them. -/
def codeCheckOrder (sha : String → String) (hmac : String → String → String)
    (id : AgentIdentity) (now : Int) (req : AgentRequest) : List (Option AuthResult) :=
  [checkHeaders req, checkNodeId id req, checkTimestampParse req,
   checkReplayWindow now req, checkBodyHash sha req, checkSignature hmac id req]

/-- The error of the earliest failing check, `ok` when every check passes. -/
def firstFailure (l : List (Option AuthResult)) : AuthResult :=
  (l.findSome? (fun x => x)).getD .ok

/-! ## Relay coordinator: one-time token consumption
(`ServersGateway.handleConnection` in
`src/apps/panel-api/src/servers/servers.gateway.ts`) -/

/-- A `wsToken` row: `serverId`, `expiresAt` (epoch ms) and the optional
`userId` the token was minted for. -/
structure WsTokenRec where
  serverId : String
  expiresAt : Int
  userId : Option String
  deriving DecidableEq

/-- The `wsToken` table keyed by `tokenHash`. -/
abbrev TokenStore := List (String × WsTokenRec)

/-- `prisma.wsToken.findUnique` by `tokenHash`. -/
def findToken (store : TokenStore) (tokenHash : String) : Option WsTokenRec :=
  (store.find? (fun p => p.1 == tokenHash)).map (fun p => p.2)

/-- `prisma.wsToken.delete` by the unique `tokenHash` key. -/
def deleteToken (store : TokenStore) (tokenHash : String) : TokenStore :=
  store.filter (fun p => p.1 != tokenHash)

/-- Outcome of `handleConnection` on an inbound browser socket: a policy
close (code 1008 with the reason string), the catch-all 1011 close, or a
successful hand-off to `proxyAll`. -/
inductive ConnOutcome where
  | close1008 (reason : String)
  | close1011
  | proxied
  deriving DecidableEq

/-- `ServersGateway.handleConnection`: extract `serverId` and `token` from the
upgrade URL, hash the raw token, look the record up, reject with close 1008 on
absence / `serverId` mismatch / expiry (strict `expiresAt < now`), reject a
user mismatch, then delete the record (single use) before resolving the server
and node and handing off to `proxyAll`.  `sha` is the runtime sha256-hex
primitive; `findServer` maps a server id to its owning node id;
`nodeKnown` is the node lookup; `accessOk` is the `assertServerAccess`
outcome (a failure there throws and is caught as a 1011 close).
Returns the outcome together with the token store afterwards. -/
def handleConnection (sha : String → String) (store : TokenStore)
    (serverIdParam tokenParam : Option String) (now : Int)
    (reqUserId : Option String) (findServer : String → Option String)
    (nodeKnown : String → Bool) (accessOk : Bool) : ConnOutcome × TokenStore :=
  match serverIdParam, tokenParam with
  | some serverId, some token =>
    if serverId = "" ∨ token = "" then (.close1008 "Missing serverId/token", store)
    else
      let tokenHash := sha token
      match findToken store tokenHash with
      | none => (.close1008 "Invalid token", store)
      | some wsToken =>
        if wsToken.serverId ≠ serverId ∨ wsToken.expiresAt < now then
          (.close1008 "Invalid token", store)
        else if (match wsToken.userId, reqUserId with
                 | some u, some ru => u != ru
                 | _, _ => false) then
          (.close1008 "Token user mismatch", store)
        else
          let store2 := deleteToken store tokenHash
          match findServer serverId with
          | none => (.close1008 "Server not found", store2)
          | some nodeId =>
            if ¬ accessOk then (.close1011, store2)
            else if ¬ nodeKnown nodeId then (.close1008 "Node not found", store2)
            else (.proxied, store2)
  | _, _ => (.close1008 "Missing serverId/token", store)

/-! ## Relay session: teardown and reconnect guards
(`ServersGateway.proxyAll` in
`src/apps/panel-api/src/servers/servers.gateway.ts`) -/

/-- The agent-facing sub-channels of a relay session. -/
inductive AgentChannel where
  | logs
  | console
  | status
  deriving DecidableEq

/-- In-memory state of one `proxyAll` session: the shared `closed` flag, the
status poll interval, the two agent sub-sockets (identified by an id drawn
from `nextSock`), and the per-connection `gotAnyMessage` flag of the status
stream. -/
structure RelaySession where
  closed : Bool
  pollTimer : Bool
  logsWs : Option Nat
  statusWs : Option Nat
  statusGotMsg : Bool
  nextSock : Nat
  deriving DecidableEq

/-- Observable actions a session step performs, in program order. -/
inductive RelayAct where
  | setClosedFlag
  | clearPoll
  | closeSock (id : Nat)
  | closeBrowser
  | connectAttempt (ch : AgentChannel)
  | scheduleReconnect (ch : AgentChannel)
  deriving DecidableEq

/-- `closeAll` from `proxyAll`: no-op when already closed; otherwise set
`closed` first, clear the poll interval, close both agent sub-sockets, then
close the browser socket. -/
def closeAll (s : RelaySession) : RelaySession × List RelayAct :=
  if s.closed then (s, [])
  else
    ({ s with closed := true, pollTimer := false, logsWs := none, statusWs := none },
      [RelayAct.setClosedFlag]
        ++ (if s.pollTimer then [RelayAct.clearPoll] else [])
        ++ (match s.logsWs with | some i => [RelayAct.closeSock i] | none => [])
        ++ (match s.statusWs with | some i => [RelayAct.closeSock i] | none => [])
        ++ [RelayAct.closeBrowser])

/-- `connectLogs` from `proxyAll`: bail out when the session is closed,
otherwise close any previous logs socket and open a new signed connection. -/
def connectLogs (s : RelaySession) : RelaySession × List RelayAct :=
  if s.closed then (s, [])
  else
    ({ s with logsWs := some s.nextSock, nextSock := s.nextSock + 1 },
      (match s.logsWs with | some i => [RelayAct.closeSock i] | none => [])
        ++ [RelayAct.connectAttempt AgentChannel.logs])

/-- `connectStatusStream` from `proxyAll`: bail out when the session is
closed, otherwise close any previous status socket, reset `gotAnyMessage`,
and open a new signed connection. -/
def connectStatusStream (s : RelaySession) : RelaySession × List RelayAct :=
  if s.closed then (s, [])
  else
    ({ s with statusWs := some s.nextSock, statusGotMsg := false,
              nextSock := s.nextSock + 1 },
      (match s.statusWs with | some i => [RelayAct.closeSock i] | none => [])
        ++ [RelayAct.connectAttempt AgentChannel.status])

/-- Events delivered to a relay session by the event loop: browser socket
close or error, sub-socket close events, fired reconnect timers (which may
have been scheduled before teardown), and a status-stream message. -/
inductive RelayEv where
  | browserClose
  | browserError
  | logsSockClose
  | logsReconnectTimer
  | statusSockClose
  | statusReconnectTimer
  | statusSockMsg
  deriving DecidableEq

/-- One callback dispatch of the `proxyAll` session, translated handler by
handler: browser close/error run `closeAll`; a logs-socket close schedules a
reconnect unless `closed`; a fired reconnect timer runs the corresponding
connect function (which itself bails out when `closed`); a status-socket
close schedules a reconnect only if the stream ever produced a message and
the session is not closed. -/
def relayStep (s : RelaySession) : RelayEv → RelaySession × List RelayAct
  | .browserClose => closeAll s
  | .browserError => closeAll s
  | .logsSockClose =>
    if ¬ s.closed then (s, [RelayAct.scheduleReconnect AgentChannel.logs]) else (s, [])
  | .logsReconnectTimer => connectLogs s
  | .statusSockClose =>
    if ¬ s.statusGotMsg then (s, [])
    else if ¬ s.closed then (s, [RelayAct.scheduleReconnect AgentChannel.status]) else (s, [])
  | .statusReconnectTimer => connectStatusStream s
  | .statusSockMsg => ({ s with statusGotMsg := true }, [])

/-- Run a session through a list of events, concatenating the actions. -/
def relayRun (s : RelaySession) : List RelayEv → RelaySession × List RelayAct
  | [] => (s, [])
  | e :: es =>
    let se := relayStep s e
    let rest := relayRun se.1 es
    (rest.1, se.2 ++ rest.2)

/-- Whether an action is a sub-channel reconnect schedule or a new connection
attempt. -/
def isReconnectAct : RelayAct → Bool
  | .connectAttempt _ => true
  | .scheduleReconnect _ => true
  | _ => false

/-! ## Log-tail cursor (`updateSinceFromText` and the reattach options of
`attachOnce`, in `src/apps/agent/index.ts`) -/

/-- The regex cleanup `ts.replace(/\.(\d\x7b3\x7d)\d+Z$/, ".$1Z")`: when the
string ends with `Z` preceded by a run of four or more digits preceded by a
dot, keep only the first three digits of the run. -/
def cleanTs (s : String) : String :=
  match s.data.getLast? with
  | some 'Z' =>
    let body := s.data.dropLast
    let runLen := (body.reverse.takeWhile Char.isDigit).length
    let stem := body.take (body.length - runLen)
    if 4 ≤ runLen ∧ stem.getLast? = some '.' then
      String.mk (stem ++ (body.drop (body.length - runLen)).take 3 ++ ['Z'])
    else s
  | _ => s

/-- The value a single log line contributes to the cursor: the text before the
first space (skipped when the space is absent or at index 0), cleaned up and
fed to `Date.parse` (`dateParse`, a runtime builtin returning epoch ms or
`none` for NaN), floored to seconds. -/
def parseLineSince (dateParse : String → Option Int) (ln : List Char) : Option Int :=
  match ln.findIdx? (fun c => c = ' ') with
  | none => none
  | some 0 => none
  | some space =>
    (dateParse (cleanTs (String.mk (ln.take space)))).map (fun ms => Int.fdiv ms 1000)

/-- One line of `updateSinceFromText`: a parseable timestamp overwrites the
cursor (`lastSinceSec = Math.floor(ms / 1000)`), otherwise the line is
skipped. -/
def updateSinceLine (dateParse : String → Option Int) (acc : Option Int)
    (ln : List Char) : Option Int :=
  match parseLineSince dateParse ln with
  | some v => some v
  | none => acc

/-- Split on a separator character, JS `String.prototype.split` with a
one-character separator. -/
def splitOnChar (sep : Char) : List Char → List (List Char)
  | [] => [[]]
  | c :: rest =>
    let r := splitOnChar sep rest
    if c = sep then [] :: r
    else
      match r with
      | h :: t => (c :: h) :: t
      | [] => [[c]]

/-- The line list `updateSinceFromText` scans:
`text.replace(/\r/g, "").split("\n")`. -/
def linesOf (text : String) : List (List Char) :=
  splitOnChar '\n' (text.data.filter (fun c => c ≠ '\r'))

/-- `updateSinceFromText` from the log-stream route of
`src/apps/agent/index.ts`: scan each line of the chunk and assign the cursor
from every parseable leading timestamp. -/
def updateSinceFromText (dateParse : String → Option Int) (acc : Option Int)
    (text : String) : Option Int :=
  (linesOf text).foldl (updateSinceLine dateParse) acc

/-- The cursor after a whole sequence of inbound chunks. -/
def updateSinceSeq (dateParse : String → Option Int) (acc : Option Int)
    (chunks : List String) : Option Int :=
  chunks.foldl (updateSinceFromText dateParse) acc

/-- Right-biased override: the second value when present, the first
otherwise.  The assignment semantics of the cursor update. -/
def overrideWith (acc v : Option Int) : Option Int :=
  match v with
  | some x => some x
  | none => acc

/-- The timestamp-second of the last parseable line across a chunk
sequence. -/
def lastParsedInChunks (dateParse : String → Option Int)
    (chunks : List String) : Option Int :=
  ((chunks.map linesOf).flatten.reverse).findSome? (parseLineSince dateParse)

/-- The `container.logs` options relevant to reattach: the optional `since`
cursor and the `tail` count. -/
structure LogOpts where
  since : Option Int
  tail : Nat
  deriving DecidableEq

/-- JS truthiness of the `lastSinceSec : number | null` variable: `null` and
`0` are falsy. -/
def jsTruthyInt : Option Int → Bool
  | none => false
  | some v => v != 0

/-- The options `attachOnce` builds: `if (lastSinceSec) \x7b opts.since =
lastSinceSec; opts.tail = 0 \x7d else \x7b opts.tail = tail \x7d`. -/
def attachLogOpts (lastSinceSec : Option Int) (tail : Nat) : LogOpts :=
  if jsTruthyInt lastSinceSec then { since := lastSinceSec, tail := 0 }
  else { since := none, tail := tail }

/-- The value of query parameter `key` in a raw URL: the text after the first
`?`, split on `&`, first pair whose key matches. -/
def queryParam (rawUrl : String) (key : String) : Option String :=
  match splitOnChar '?' rawUrl.data with
  | _ :: rest =>
    let query := (rest.intersperse ['?']).flatten
    ((splitOnChar '&' query).findSome? (fun pair =>
      let k := takeUntilChar '=' pair
      if k = key.data ∧ pair.length > k.length
      then some (String.mk (pair.drop (k.length + 1)))
      else if k = key.data ∧ pair.length = k.length then some ""
      else none))
  | [] => none

/-- `parseTail` from `src/apps/agent/index.ts`: read the `tail` query
parameter; a missing or falsy value, a non-finite number, or a value outside
`0..5000` falls back to the default. -/
def parseTail (rawUrl : String) (defaultTail : Nat) : Nat :=
  match queryParam rawUrl "tail" with
  | none => defaultTail
  | some t =>
    if t = "" then defaultTail
    else
      match jsNumber t with
      | none => defaultTail
      | some n => if 0 ≤ n ∧ n ≤ 5000 then n.toNat else defaultTail

/-! ## Browser/agent frame handling (`proxyAll`'s `clientWs` message handler
and the console-stream handler of `src/apps/agent/index.ts`) -/

/-- The fields of a parsed JSON frame the handlers inspect: `type` (as a
string, absent when missing or not a string for `type` checks) and `data`
(present only when it is a string; `String(msg.data ?? "")` is modelled by
`getD ""`). -/
structure JsMsg where
  typeField : Option String
  dataField : Option String
  deriving DecidableEq

/-- What the panel relay does with one browser text frame. -/
inductive ClientAction where
  | noAction
  | sendCommand (cmd : String)
  | pong
  deriving DecidableEq

/-- JS whitespace trimming on the command strings this protocol handles. -/
def jsTrim (l : List Char) : List Char :=
  ((l.dropWhile (fun c => c = ' ' ∨ c = '\t' ∨ c = '\n' ∨ c = '\r')).reverse.dropWhile
    (fun c => c = ' ' ∨ c = '\t' ∨ c = '\n' ∨ c = '\r')).reverse

/-- The `clientWs.on("message")` handler of `proxyAll`: drop everything when
closed; `JSON.parse` failures and falsy or `type`-less values are silently
discarded; `type = "cmd"` trims `String(msg.data ?? "")` and relays it when
non-empty; `type = "ping"` answers with a pong.  `parse` is the runtime
`JSON.parse`, returning `none` when it throws or produces a falsy value. -/
def handleClientFrame (parse : String → Option JsMsg) (closed : Bool)
    (raw : String) : ClientAction :=
  if closed then .noAction
  else
    match parse raw with
    | none => .noAction
    | some msg =>
      match msg.typeField with
      | none => .noAction
      | some t =>
        if t = "" then .noAction
        else if t = "cmd" then
          let cmd := jsTrim (msg.dataField.getD "").data
          if cmd = [] then .noAction else .sendCommand (String.mk cmd)
        else if t = "ping" then .pong
        else .noAction

/-- What the agent console-stream handler does with one inbound frame. -/
inductive ConsoleAction where
  | ignored
  | writeStdin (line : String)
  deriving DecidableEq

/-- The global replace `cmd.replace(/\r?\n/g, "")`: every newline, together
with an immediately preceding carriage return, is removed. -/
def stripNewlines : List Char → List Char
  | [] => []
  | '\r' :: '\n' :: rest => stripNewlines rest
  | '\n' :: rest => stripNewlines rest
  | c :: rest => c :: stripNewlines rest

/-- The `ws.on("message")` handler of the agent console stream: when the text
parses as JSON of shape `(type := "cmd", data : string)` the command is
`data`, otherwise the raw text itself is the command (plain text is fine);
newlines are stripped, the result is trimmed, empty commands are dropped, and
the command plus a newline is written to the container's stdin. -/
def handleConsoleFrame (parse : String → Option JsMsg) (closed : Bool)
    (text : String) : ConsoleAction :=
  if closed then .ignored
  else
    let cmd :=
      match parse text with
      | some obj =>
        if obj.typeField = some "cmd" ∧ obj.dataField.isSome
        then (obj.dataField.getD "").data
        else text.data
      | none => text.data
    let cmd2 := jsTrim (stripNewlines cmd)
    if cmd2 = [] then .ignored else .writeStdin (String.mk (cmd2 ++ ['\n']))

/-! # Theorems -/

theorem overrideWith_assoc (a b c : Option Int) :
    overrideWith (overrideWith a b) c = overrideWith a (overrideWith b c) := by
  cases c <;> cases b <;> rfl

theorem updateSinceLine_eq (dp : String → Option Int) (acc : Option Int)
    (ln : List Char) :
    updateSinceLine dp acc ln = overrideWith acc (parseLineSince dp ln) := by
  unfold updateSinceLine overrideWith
  cases parseLineSince dp ln <;> rfl

theorem findSome?_append_override {α β : Type} (f : α → Option β) (l1 l2 : List α) :
    (l1 ++ l2).findSome? f =
      match l1.findSome? f with
      | some v => some v
      | none => l2.findSome? f := by
  induction l1 with
  | nil => simp
  | cons a t ih =>
    simp only [List.cons_append, List.findSome?_cons]
    cases f a <;> simp [ih]

theorem foldl_updateSinceLine (dp : String → Option Int)
    (lines : List (List Char)) :
    ∀ acc, lines.foldl (updateSinceLine dp) acc =
      overrideWith acc (lines.reverse.findSome? (parseLineSince dp)) := by
  induction lines with
  | nil => intro acc; rfl
  | cons ln rest ih =>
    intro acc
    simp only [List.foldl_cons, List.reverse_cons]
    rw [ih, findSome?_append_override]
    cases h : rest.reverse.findSome? (parseLineSince dp) <;>
      cases hp : parseLineSince dp ln <;>
        simp [overrideWith, updateSinceLine_eq, List.findSome?, hp]

/-- C7 (amended): after any sequence of inbound chunks the cursor equals the
timestamp-second parsed from the *last* parseable line seen so far — plain
assignment, not a running maximum — falling back to the initial cursor when
no line parses. -/
theorem log_cursor_last_assignment (dp : String → Option Int)
    (chunks : List String) : ∀ acc,
    updateSinceSeq dp acc chunks = overrideWith acc (lastParsedInChunks dp chunks) := by
  induction chunks with
  | nil => intro acc; cases acc <;> rfl
  | cons c cs ih =>
    intro acc
    have hstep : lastParsedInChunks dp (c :: cs) =
        overrideWith ((linesOf c).reverse.findSome? (parseLineSince dp))
          (lastParsedInChunks dp cs) := by
      unfold lastParsedInChunks
      simp only [List.map_cons, List.flatten_cons, List.reverse_append]
      rw [findSome?_append_override]
      cases h : ((cs.map linesOf).flatten.reverse).findSome? (parseLineSince dp) <;>
        simp [overrideWith]
    have hchunk : updateSinceFromText dp acc c =
        overrideWith acc ((linesOf c).reverse.findSome? (parseLineSince dp)) :=
      foldl_updateSinceLine dp (linesOf c) acc
    calc updateSinceSeq dp acc (c :: cs)
        = updateSinceSeq dp (updateSinceFromText dp acc c) cs := rfl
      _ = overrideWith (updateSinceFromText dp acc c) (lastParsedInChunks dp cs) :=
          ih _
      _ = overrideWith acc (lastParsedInChunks dp (c :: cs)) := by
          rw [hchunk, overrideWith_assoc, hstep]

/-- C7 counterexample: two chunks with out-of-order embedded timestamps.
After the first chunk the cursor is 100 s; the second chunk carries an older
timestamp (50 s) and the cursor *decreases* to 50 instead of staying at the
maximum 100, refuting "equals the maximum seen, never decreasing". -/
theorem log_cursor_regression :
    updateSinceSeq
        (fun s => if s = "A" then some 100000 else if s = "B" then some 50000 else none)
        none ["A x"] = some 100 ∧
    updateSinceSeq
        (fun s => if s = "A" then some 100000 else if s = "B" then some 50000 else none)
        none ["A x", "B y"] = some 50 ∧
    ¬ (100 : Int) ≤ 50 := by decide

/-- C8 (amended): on reattach, a *nonzero* cursor value yields a request with
`since = cursor` and `tail = 0`; with no cursor the request uses the
configured tail count (`parseTail` of the stream URL, default 100).  A cursor
value of exactly 0 is falsy in JS and is treated as "no cursor". -/
theorem attach_opts_cursor (rawUrl : String) (cursor : Option Int) :
    (∀ v : Int, cursor = some v → v ≠ 0 →
      attachLogOpts cursor (parseTail rawUrl 100) = { since := some v, tail := 0 }) ∧
    (cursor = none →
      attachLogOpts cursor (parseTail rawUrl 100) =
        { since := none, tail := parseTail rawUrl 100 }) := by
  constructor
  · intro v hv hnz
    subst hv
    simp [attachLogOpts, jsTruthyInt, hnz]
  · intro hv
    subst hv
    rfl

theorem attach_opts_cursor_witness :
    attachLogOpts (some 7) (parseTail "/v1/servers/s1/logs/stream?tail=100" 100) =
      { since := some 7, tail := 0 } ∧
    attachLogOpts none (parseTail "/v1/servers/s1/logs/stream?tail=100" 100) =
      { since := none, tail := 100 } := by
  constructor
  · exact (attach_opts_cursor "/v1/servers/s1/logs/stream?tail=100" (some 7)).1 7 rfl
      (by decide)
  · have h := (attach_opts_cursor "/v1/servers/s1/logs/stream?tail=100" none).2 rfl
    rw [h]
    decide

/-- C8 counterexample: the cursor value `some 0` exists but the reattach
request falls back to the default tail instead of `since = 0, tail = 0`,
because the code tests JS truthiness of the cursor. -/
theorem attach_opts_zero_cursor :
    attachLogOpts (some 0) (parseTail "/v1/servers/s1/logs/stream?tail=100" 100) =
      { since := none, tail := 100 } ∧
    LogOpts.mk none 100 ≠ { since := some 0, tail := 0 } := by decide

/-- C9 (amended): a request whose *full URL* is exactly `/health` bypasses
HMAC verification and reaches its handler, for every identity state including
an absent enrollment.  (Requests to the health route carrying a query string
are not exempted — see the counterexample.) -/
theorem health_path_exempt (sha : String → String) (hmac : String → String → String)
    (identity : Option AgentIdentity) (now : Int) (handlerStatus : Nat)
    (req : AgentRequest) (h : req.url = "/health") :
    hmacAuthHook sha hmac identity now req = .ok ∧
    runProtected handlerStatus (hmacAuthHook sha hmac identity now req) =
      (handlerStatus, true) := by
  have h1 : hmacAuthHook sha hmac identity now req = .ok := by
    unfold hmacAuthHook
    rw [if_pos h]
  exact ⟨h1, by rw [h1]; rfl⟩

theorem health_path_exempt_witness :
    hmacAuthHook (fun _ => "aa") (fun _ _ => "bb") none 0
      { url := "/health", method := "GET", nodeIdHeader := none, tsHeader := none,
        bodyHashHeader := none, sigHeader := none, body := "" } = .ok ∧
    runProtected 200 (hmacAuthHook (fun _ => "aa") (fun _ _ => "bb") none 0
      { url := "/health", method := "GET", nodeIdHeader := none, tsHeader := none,
        bodyHashHeader := none, sigHeader := none, body := "" }) = (200, true) :=
  health_path_exempt (fun _ => "aa") (fun _ _ => "bb") none 0 200
    { url := "/health", method := "GET", nodeIdHeader := none, tsHeader := none,
      bodyHashHeader := none, sigHeader := none, body := "" } rfl

/-- C9 counterexample: a request to the health endpoint carrying a query
string (`/health?probe=1`) is *not* exempt — the hook compares the full URL —
and on an un-enrolled agent it is rejected with 503 instead of reaching the
handler. -/
theorem health_query_not_exempt :
    hmacAuthHook (fun _ => "aa") (fun _ _ => "bb") none 0
      { url := "/health?probe=1", method := "GET", nodeIdHeader := none,
        tsHeader := none, bodyHashHeader := none, sigHeader := none, body := "" } =
      .notEnrolled ∧
    AuthResult.notEnrolled ≠ .ok ∧
    runProtected 200 (hmacAuthHook (fun _ => "aa") (fun _ _ => "bb") none 0
      { url := "/health?probe=1", method := "GET", nodeIdHeader := none,
        tsHeader := none, bodyHashHeader := none, sigHeader := none, body := "" }) =
      (503, false) := by decide

/-- C5 (amended): every rejection of the verifier aborts the request before
the handler runs; the status is 401 for every rejection except the
not-enrolled case, which responds 503.  No rejection of this hook responds
428 (the 428 body-hash-precondition reply exists only in a different,
unused hook variant). -/
theorem verifier_rejection_statuses (sha : String → String)
    (hmac : String → String → String) (identity : Option AgentIdentity)
    (now : Int) (handlerStatus : Nat) (req : AgentRequest)
    (h : hmacAuthHook sha hmac identity now req ≠ .ok) :
    (runProtected handlerStatus (hmacAuthHook sha hmac identity now req)).2 = false ∧
    ((runProtected handlerStatus (hmacAuthHook sha hmac identity now req)).1 = 401 ∨
      ((runProtected handlerStatus (hmacAuthHook sha hmac identity now req)).1 = 503 ∧
        hmacAuthHook sha hmac identity now req = .notEnrolled)) ∧
    (runProtected handlerStatus (hmacAuthHook sha hmac identity now req)).1 ≠ 428 := by
  cases hr : hmacAuthHook sha hmac identity now req <;>
    simp_all [runProtected, rejectionStatus]

theorem verifier_rejection_statuses_witness :
    (runProtected 200 (hmacAuthHook (fun _ => "aa") (fun _ _ => "bb") none 0
      { url := "/v1/servers/s1/status", method := "GET", nodeIdHeader := none,
        tsHeader := none, bodyHashHeader := none, sigHeader := none,
        body := "" })).2 = false :=
  (verifier_rejection_statuses (fun _ => "aa") (fun _ _ => "bb") none 0 200
    { url := "/v1/servers/s1/status", method := "GET", nodeIdHeader := none,
      tsHeader := none, bodyHashHeader := none, sigHeader := none, body := "" }
    (by decide)).1

/-- C5 counterexample: an un-enrolled agent rejects a protected request with
HTTP 503, not 401, and no 428 branch exists — refuting "every rejection
responds 401 except a 428 precondition case". -/
theorem verifier_not_enrolled_503 :
    runProtected 200 (hmacAuthHook (fun _ => "aa") (fun _ _ => "bb") none 0
      { url := "/v1/servers/s1/status", method := "GET", nodeIdHeader := none,
        tsHeader := none, bodyHashHeader := none, sigHeader := none, body := "" }) =
      (503, false) ∧
    (503 : Nat) ≠ 401 ∧ (503 : Nat) ≠ 428 := by decide

/-- C10 (amended): a browser text frame that does not parse as JSON is
silently discarded by the panel relay (not treated as a raw command), while
the agent-side console-stream handler does fall back to treating unparseable
text as a raw command string, writing it (newline-stripped and trimmed) to
the container stdin. -/
theorem nonjson_frame_handling (parse : String → Option JsMsg) (raw : String)
    (hp : parse raw = none) :
    handleClientFrame parse false raw = .noAction ∧
    (jsTrim (stripNewlines raw.data) ≠ [] →
      handleConsoleFrame parse false raw =
        .writeStdin (String.mk (jsTrim (stripNewlines raw.data) ++ ['\n']))) := by
  constructor
  · simp [handleClientFrame, hp]
  · intro hne
    simp [handleConsoleFrame, hp, hne]

theorem nonjson_frame_handling_witness :
    handleClientFrame (fun _ => none) false "hello" = .noAction ∧
    handleConsoleFrame (fun _ => none) false "hello" = .writeStdin "hello\n" := by
  have h := nonjson_frame_handling (fun _ => none) "hello" rfl
  refine ⟨h.1, ?_⟩
  have h2 := h.2 (by decide)
  rw [h2]
  decide

/-- C10 counterexample: the relay's browser-facing message handler drops a
non-JSON frame instead of treating it as a raw command string. -/
theorem nonjson_frame_discarded_by_relay :
    handleClientFrame (fun _ => none) false "hello" = .noAction ∧
    ClientAction.noAction ≠ .sendCommand "hello" := by decide

theorem safeEqualHex_self (a : String) : safeEqualHex a a = true := by
  simp [safeEqualHex]

/-- C2: for a request produced by the signer at clock `t0` and otherwise
consistent (matching identity, non-health path, non-empty method), the
verifier at clock `now` accepts exactly when `|now - t0| ≤ 60000` ms and
rejects with the timestamp-expiry error exactly when `|now - t0| > 60000` ms. -/
theorem hmac_replay_window (sha : String → String) (hmac : String → String → String)
    (id : AgentIdentity) (t0 : Nat) (now : Int) (method path bodyStr : String)
    (hpath : path ≠ "/health") (hm : method ≠ "")
    (hts : jsNumber (toString t0) = some (t0 : Int)) :
    hmacAuthHook sha hmac (some id) now
        (mkSignedRequest sha hmac id t0 method path bodyStr) =
      (if (now - (t0 : Int)).natAbs ≤ 60000 then .ok else .timestampOutOfRange) := by
  unfold mkSignedRequest agentSignedHeaders hmacAuthHook
  by_cases h60 : 60000 < (now - (t0 : Int)).natAbs
  · have hle : ¬ ((now - (t0 : Int)).natAbs ≤ 60000) := by omega
    simp [hpath, hts, h60, hle]
  · have hle : (now - (t0 : Int)).natAbs ≤ 60000 := by omega
    simp [hpath, hts, h60, hle, hm, safeEqualHex_self]

theorem hmac_replay_window_witness :
    hmacAuthHook (fun _ => "aa") (fun _ _ => "bb") (some ⟨"n", "s"⟩) 60000
      (mkSignedRequest (fun _ => "aa") (fun _ _ => "bb") ⟨"n", "s"⟩ 1000 "GET" "/x" "") =
      .ok ∧
    hmacAuthHook (fun _ => "aa") (fun _ _ => "bb") (some ⟨"n", "s"⟩) 62000
      (mkSignedRequest (fun _ => "aa") (fun _ _ => "bb") ⟨"n", "s"⟩ 1000 "GET" "/x" "") =
      .timestampOutOfRange := by
  constructor
  · have h := hmac_replay_window (fun _ => "aa") (fun _ _ => "bb") ⟨"n", "s"⟩ 1000 60000
      "GET" "/x" "" (by decide) (by decide) (by decide)
    rw [h]
    decide
  · have h := hmac_replay_window (fun _ => "aa") (fun _ _ => "bb") ⟨"n", "s"⟩ 1000 62000
      "GET" "/x" "" (by decide) (by decide) (by decide)
    rw [h]
    decide

/-- C4 (amended): on a non-exempt request with an enrolled identity, the
verifier rejects with the error kind of the earliest failing check in the
order the code performs them: header presence, then node-id resolution, then
timestamp parse, then replay window, then body hash, then signature.  (The
spec's order places node-id resolution after the body hash; the code checks
the node id second — see the counterexample.) -/
theorem verifier_check_order (sha : String → String) (hmac : String → String → String)
    (id : AgentIdentity) (now : Int) (req : AgentRequest)
    (hurl : req.url ≠ "/health") :
    hmacAuthHook sha hmac (some id) now req =
      firstFailure (codeCheckOrder sha hmac id now req) := by
  obtain ⟨url, method, nh, th, bh, sh, body⟩ := req
  simp only at hurl
  unfold hmacAuthHook firstFailure codeCheckOrder checkHeaders checkNodeId
    checkTimestampParse checkReplayWindow checkBodyHash checkSignature
  simp only []
  rw [if_neg hurl]
  cases nh with
  | none => cases th <;> cases bh <;> cases sh <;> simp [List.findSome?]
  | some nodeId =>
    cases th with
    | none => cases bh <;> cases sh <;> simp [List.findSome?]
    | some ts =>
      cases bh with
      | none => cases sh <;> simp [List.findSome?]
      | some bodyHash =>
        cases sh with
        | none => simp [List.findSome?]
        | some sig =>
          by_cases hn : nodeId = id.nodeId
          · subst hn
            cases hjs : jsNumber ts with
            | none => simp [List.findSome?, hjs]
            | some tsNum =>
              by_cases hw : 60000 < (now - tsNum).natAbs
              · simp [List.findSome?, hjs, hw]
              · by_cases hb : sha body = bodyHash
                · cases hsig : safeEqualHex (hmac id.sharedSecret (signingString ts
                      (jsToUpper (if method = "" then "GET" else method)) (pathOnly url)
                      bodyHash)) sig <;>
                    simp [List.findSome?, hjs, hw, hb, hsig]
                · simp [List.findSome?, hjs, hw, hb]
          · simp [List.findSome?, hn]

theorem verifier_check_order_witness :
    hmacAuthHook (fun _ => "aa") (fun _ _ => "bb") (some ⟨"good", "sec"⟩) 0
      { url := "/x", method := "GET", nodeIdHeader := some "evil",
        tsHeader := some "abc", bodyHashHeader := some "h", sigHeader := some "s",
        body := "" } =
      firstFailure (codeCheckOrder (fun _ => "aa") (fun _ _ => "bb") ⟨"good", "sec"⟩ 0
        { url := "/x", method := "GET", nodeIdHeader := some "evil",
          tsHeader := some "abc", bodyHashHeader := some "h", sigHeader := some "s",
          body := "" }) :=
  verifier_check_order (fun _ => "aa") (fun _ _ => "bb") ⟨"good", "sec"⟩ 0
    { url := "/x", method := "GET", nodeIdHeader := some "evil",
      tsHeader := some "abc", bodyHashHeader := some "h", sigHeader := some "s",
      body := "" } (by decide)

/-- C4 counterexample: a request with both a non-finite timestamp (`"abc"`)
and an unknown node id is rejected as an invalid node id, not as an invalid
timestamp — the code resolves the node id *before* parsing the timestamp,
contrary to the spec's numbered order. -/
theorem verifier_nodeid_before_timestamp :
    hmacAuthHook (fun _ => "aa") (fun _ _ => "bb") (some ⟨"good", "sec"⟩) 0
      { url := "/x", method := "GET", nodeIdHeader := some "evil",
        tsHeader := some "abc", bodyHashHeader := some "h", sigHeader := some "s",
        body := "" } = .invalidNodeId ∧
    AuthResult.invalidNodeId ≠ .invalidTimestamp := by decide

theorem findToken_deleteToken (store : TokenStore) (tokenHash : String) :
    findToken (deleteToken store tokenHash) tokenHash = none := by
  induction store with
  | nil => rfl
  | cons p rest ih =>
    by_cases hp : p.1 = tokenHash
    · simp [deleteToken, List.filter_cons, hp] at ih ⊢
      exact ih
    · simp only [deleteToken, findToken, List.filter_cons, List.find?_cons, hp] at ih ⊢
      simp [hp]

/-- C3 (amended): connection validation closes with 1008 when the token
record is absent, when its `serverId` differs from the requested one, or when
it is expired — where expiry is the *strict* comparison `expiresAt < now`, so
a token presented at exactly `now = expiresAt` is still accepted.  On
successful validation the record is deleted before the server/node resolution
and before any proxying, whatever happens later, and a second validation
presenting the same raw token against the resulting store fails. -/
theorem ws_token_single_use (sha : String → String) (store : TokenStore)
    (sid token : String) (now : Int) (ruid : Option String)
    (findServer : String → Option String) (nodeKnown : String → Bool)
    (accessOk : Bool) (hsid : sid ≠ "") (htok : token ≠ "") :
    (findToken store (sha token) = none →
      handleConnection sha store (some sid) (some token) now ruid findServer
          nodeKnown accessOk =
        (.close1008 "Invalid token", store)) ∧
    (∀ rec, findToken store (sha token) = some rec →
      rec.serverId ≠ sid ∨ rec.expiresAt < now →
      handleConnection sha store (some sid) (some token) now ruid findServer
          nodeKnown accessOk =
        (.close1008 "Invalid token", store)) ∧
    (∀ rec, findToken store (sha token) = some rec →
      rec.serverId = sid → now ≤ rec.expiresAt →
      (match rec.userId, ruid with
       | some u, some ru => u != ru
       | _, _ => false) = false →
      (handleConnection sha store (some sid) (some token) now ruid findServer
          nodeKnown accessOk).2 =
        deleteToken store (sha token) ∧
      (handleConnection sha (deleteToken store (sha token)) (some sid) (some token)
          now ruid findServer nodeKnown accessOk).1 =
        .close1008 "Invalid token") := by
  refine ⟨?_, ?_, ?_⟩
  · intro habs
    simp [handleConnection, hsid, htok, habs]
  · intro rec hrec hbad
    simp [handleConnection, hsid, htok, hrec, hbad]
  · intro rec hrec hsrv hexp huser
    have hnot : ¬ (rec.serverId ≠ sid ∨ rec.expiresAt < now) := by
      simp [hsrv]
      omega
    constructor
    · cases hfs : findServer sid with
      | none => simp [handleConnection, hsid, htok, hrec, hnot, huser, hfs]
      | some nodeId =>
        cases accessOk <;>
          cases hnk : nodeKnown nodeId <;>
            simp [handleConnection, hsid, htok, hrec, hnot, huser, hfs, hnk]
    · have hnone := findToken_deleteToken store (sha token)
      simp [handleConnection, hsid, htok, hnone]

theorem ws_token_single_use_witness :
    (handleConnection (fun _ => "th") [("th", ⟨"s1", 2000, none⟩)] (some "s1")
      (some "t") 1000 none (fun _ => some "n1") (fun _ => true) true).2 =
      deleteToken [("th", ⟨"s1", 2000, none⟩)] "th" ∧
    (handleConnection (fun _ => "th") (deleteToken [("th", ⟨"s1", 2000, none⟩)] "th")
      (some "s1") (some "t") 1000 none (fun _ => some "n1") (fun _ => true) true).1 =
      .close1008 "Invalid token" :=
  (ws_token_single_use (fun _ => "th") [("th", ⟨"s1", 2000, none⟩)] "s1" "t" 1000
    none (fun _ => some "n1") (fun _ => true) true (by decide) (by decide)).2.2
    ⟨"s1", 2000, none⟩ (by decide) (by decide) (by decide) (by decide)

/-- C3 counterexample: a token presented at exactly its expiry instant
(`now = expiresAt = 1000`) is accepted and consumed, not rejected — the code
rejects only on the strict `expiresAt < now`, while the claim demands
rejection for `now ≥ expiresAt`. -/
theorem ws_token_expiry_boundary_accepted :
    handleConnection (fun _ => "th") [("th", ⟨"s1", 1000, none⟩)] (some "s1")
      (some "t") 1000 none (fun _ => some "n1") (fun _ => true) true =
      (.proxied, []) ∧
    ConnOutcome.proxied ≠ ConnOutcome.close1008 "Invalid token" := by decide

theorem relayStep_closed_acts (s : RelaySession) (e : RelayEv)
    (h : s.closed = true) : (relayStep s e).2 = [] := by
  cases e <;> simp [relayStep, closeAll, connectLogs, connectStatusStream, h]

theorem relayStep_closed_preserved (s : RelaySession) (e : RelayEv)
    (h : s.closed = true) : (relayStep s e).1.closed = true := by
  cases e <;> simp [relayStep, closeAll, connectLogs, connectStatusStream, h]

theorem relayRun_closed_acts (evs : List RelayEv) : ∀ s : RelaySession,
    s.closed = true → (relayRun s evs).2 = [] := by
  induction evs with
  | nil => intro s _; rfl
  | cons e es ih =>
    intro s h
    simp [relayRun, relayStep_closed_acts s e h,
      ih (relayStep s e).1 (relayStep_closed_preserved s e h)]

/-- C6: teardown (browser close or error) on a live session sets the shared
closed flag first and closes the browser socket last, closing every open
agent sub-socket in between; and from the torn-down state no later event —
including reconnect timers scheduled before teardown — ever performs a
sub-channel reconnect schedule or a new connection attempt. -/
theorem relay_teardown_no_reconnect (s : RelaySession) (e : RelayEv)
    (evs : List RelayEv) (hopen : s.closed = false)
    (he : e = .browserClose ∨ e = .browserError) :
    (relayStep s e).1.closed = true ∧
    (relayStep s e).2.head? = some RelayAct.setClosedFlag ∧
    (relayStep s e).2.getLast? = some RelayAct.closeBrowser ∧
    (∀ i, s.logsWs = some i → RelayAct.closeSock i ∈ (relayStep s e).2) ∧
    (∀ i, s.statusWs = some i → RelayAct.closeSock i ∈ (relayStep s e).2) ∧
    (∀ a, a ∈ (relayRun (relayStep s e).1 evs).2 → isReconnectAct a = false) := by
  have hstep : relayStep s e = closeAll s := by
    rcases he with h | h <;> subst h <;> rfl
  have hclosed : (closeAll s).1.closed = true := by
    simp [closeAll, hopen]
  refine ⟨hstep ▸ hclosed, ?_, ?_, ?_, ?_, ?_⟩
  · rw [hstep]
    simp [closeAll, hopen]
  · rw [hstep]
    cases hp : s.pollTimer <;>
      rcases hl : s.logsWs with _ | i <;>
        rcases hs2 : s.statusWs with _ | j <;>
          simp [closeAll, hopen, hp, hl, hs2, List.getLast?_cons_cons,
            List.getLast?_singleton]
  · intro i hi
    rw [hstep]
    simp [closeAll, hopen, hi]
  · intro i hi
    rw [hstep]
    simp [closeAll, hopen, hi]
  · intro a ha
    rw [hstep, relayRun_closed_acts evs (closeAll s).1 hclosed] at ha
    cases ha

theorem relay_teardown_no_reconnect_witness :
    (relayStep ⟨false, true, some 1, some 2, true, 3⟩ .browserClose).1.closed = true ∧
    (relayStep ⟨false, true, some 1, some 2, true, 3⟩ .browserClose).2.head? =
      some RelayAct.setClosedFlag ∧
    (relayStep ⟨false, true, some 1, some 2, true, 3⟩ .browserClose).2.getLast? =
      some RelayAct.closeBrowser :=
  ⟨(relay_teardown_no_reconnect ⟨false, true, some 1, some 2, true, 3⟩ .browserClose
      [.logsReconnectTimer, .statusReconnectTimer] rfl (Or.inl rfl)).1,
   (relay_teardown_no_reconnect ⟨false, true, some 1, some 2, true, 3⟩ .browserClose
      [.logsReconnectTimer, .statusReconnectTimer] rfl (Or.inl rfl)).2.1,
   (relay_teardown_no_reconnect ⟨false, true, some 1, some 2, true, 3⟩ .browserClose
      [.logsReconnectTimer, .statusReconnectTimer] rfl (Or.inl rfl)).2.2.1⟩

theorem hexVal_lt (c : Char) (v : Nat) (h : hexVal c = some v) : v < 16 := by
  unfold hexVal at h
  split_ifs at h with h1 h2 h3 <;> injection h with h <;> subst h
  · have hb : c.toNat ≤ 57 := h1.2
    have h0 : Char.toNat '0' = 48 := rfl
    omega
  · have hb : c.toNat ≤ 102 := h2.2
    have h0 : Char.toNat 'a' = 97 := rfl
    omega
  · have hb : c.toNat ≤ 70 := h3.2
    have h0 : Char.toNat 'A' = 65 := rfl
    omega

theorem hexDecodeList_map_eq : ∀ (a b : List Char), a.length = b.length →
    a.length % 2 = 0 →
    (∀ c ∈ a, (hexVal c).isSome = true) →
    (∀ c ∈ b, (hexVal c).isSome = true) →
    hexDecodeList a = hexDecodeList b →
    a.map hexVal = b.map hexVal
  | [], [], _, _, _, _, _ => rfl
  | [], _ :: _, hlen, _, _, _, _ => by simp at hlen
  | _ :: _, [], hlen, _, _, _, _ => by simp at hlen
  | [_], [_], _, hpar, _, _, _ => by simp at hpar
  | [_], _ :: _ :: _, hlen, _, _, _, _ => by simp at hlen
  | _ :: _ :: _, [_], hlen, _, _, _, _ => by simp at hlen
  | a1 :: a2 :: as, b1 :: b2 :: bs, hlen, hpar, ha, hb, hdec => by
    obtain ⟨v1, hv1⟩ := Option.isSome_iff_exists.mp (ha a1 (by simp))
    obtain ⟨v2, hv2⟩ := Option.isSome_iff_exists.mp (ha a2 (by simp))
    obtain ⟨w1, hw1⟩ := Option.isSome_iff_exists.mp (hb b1 (by simp))
    obtain ⟨w2, hw2⟩ := Option.isSome_iff_exists.mp (hb b2 (by simp))
    have e1 : hexDecodeList (a1 :: a2 :: as) = (16 * v1 + v2) :: hexDecodeList as := by
      simp [hexDecodeList, hv1, hv2]
    have e2 : hexDecodeList (b1 :: b2 :: bs) = (16 * w1 + w2) :: hexDecodeList bs := by
      simp [hexDecodeList, hw1, hw2]
    rw [e1, e2] at hdec
    injection hdec with h1 h2
    have hlt2 := hexVal_lt a2 v2 hv2
    have hlt4 := hexVal_lt b2 w2 hw2
    have hvw1 : v1 = w1 := by omega
    have hvw2 : v2 = w2 := by omega
    have ih := hexDecodeList_map_eq as bs (by simp at hlen; omega)
      (by simp at hpar ⊢; omega)
      (fun c hc => ha c (List.mem_cons_of_mem _ (List.mem_cons_of_mem _ hc)))
      (fun c hc => hb c (List.mem_cons_of_mem _ (List.mem_cons_of_mem _ hc))) h2
    simp [hv1, hv2, hw1, hw2, hvw1, hvw2, ih]

theorem safeEqualHex_eq_true_iff (a b : String) :
    safeEqualHex a b = true ↔ hexDecode a = hexDecode b := by
  unfold safeEqualHex
  by_cases hl : (hexDecode a).length = (hexDecode b).length
  · simp [hl]
  · simp only [hl]
    simp
    intro h
    exact congrArg List.length h

theorem eq_of_set_eq {α : Type} {l : List α} {i : Nat} {v : α} (hi : i < l.length)
    (h : l.set i v = l) : v = l.get ⟨i, hi⟩ := by
  have h1 := congrArg (fun t : List α => t[i]?) h
  simp [hi] at h1
  exact h1

theorem set_ne_self {l : List Char} {i : Nat} {c : Char} (hi : i < l.length)
    (hc : c ≠ l.get ⟨i, hi⟩) : l.set i c ≠ l := by
  intro h
  exact hc (eq_of_set_eq hi h)

/-- C1 (amended): for a request produced by the signer and verified within
the replay window — any change of a single character of `X-Body-SHA256`, and
any change of the body whose hash differs, are rejected as a body-hash
mismatch; flipping a single hex character of `X-Signature` to one with a
*different nibble value* is rejected as a bad signature.  (Flipping a hex
letter of `X-Signature` to the other case is accepted, because the comparison
decodes hex case-insensitively — see the counterexample.) -/
theorem hmac_tamper_rejection (sha : String → String) (hmac : String → String → String)
    (id : AgentIdentity) (t0 : Nat) (now : Int) (method path bodyStr : String)
    (hpath : path ≠ "/health") (hm : method ≠ "")
    (hts : jsNumber (toString t0) = some (t0 : Int))
    (hwin : (now - (t0 : Int)).natAbs ≤ 60000) :
    (∀ (i : Nat) (c : Char) (sig2 : String),
      HexStr (hmac id.sharedSecret (signingString (toString t0) (jsToUpper method)
        (pathOnly path) (sha bodyStr))) →
      ∀ hi : i < (hmac id.sharedSecret (signingString (toString t0) (jsToUpper method)
        (pathOnly path) (sha bodyStr))).data.length,
      (hexVal c).isSome = true →
      hexVal c ≠ hexVal ((hmac id.sharedSecret (signingString (toString t0)
        (jsToUpper method) (pathOnly path) (sha bodyStr))).data.get ⟨i, hi⟩) →
      sig2.data = (hmac id.sharedSecret (signingString (toString t0) (jsToUpper method)
        (pathOnly path) (sha bodyStr))).data.set i c →
      hmacAuthHook sha hmac (some id) now
        { mkSignedRequest sha hmac id t0 method path bodyStr with
          sigHeader := some sig2 } = .badSignature) ∧
    (∀ (i : Nat) (c : Char) (bh2 : String),
      ∀ hi : i < (sha bodyStr).data.length,
      c ≠ (sha bodyStr).data.get ⟨i, hi⟩ →
      bh2.data = (sha bodyStr).data.set i c →
      hmacAuthHook sha hmac (some id) now
        { mkSignedRequest sha hmac id t0 method path bodyStr with
          bodyHashHeader := some bh2 } = .bodyHashMismatch) ∧
    (∀ body2 : String, sha body2 ≠ sha bodyStr →
      hmacAuthHook sha hmac (some id) now
        { mkSignedRequest sha hmac id t0 method path bodyStr with
          body := body2 } = .bodyHashMismatch) := by
  have hle : ¬ (60000 < (now - (t0 : Int)).natAbs) := by omega
  refine ⟨?_, ?_, ?_⟩
  · intro i c sig2 hhex hi hcsome hcne hdata
    have hlen2 : sig2.data.length = (hmac id.sharedSecret (signingString (toString t0)
        (jsToUpper method) (pathOnly path) (sha bodyStr))).data.length := by
      rw [hdata]
      simp
    have hmapne : sig2.data.map hexVal ≠ (hmac id.sharedSecret (signingString
        (toString t0) (jsToUpper method) (pathOnly path) (sha bodyStr))).data.map
        hexVal := by
      intro he
      apply hcne
      rw [hdata, List.map_set] at he
      have hi' : i < (List.map hexVal (hmac id.sharedSecret (signingString
          (toString t0) (jsToUpper method) (pathOnly path) (sha bodyStr))).data).length := by
        simpa using hi
      have h1 := eq_of_set_eq hi' he
      simpa using h1
    have hall2 : ∀ d ∈ sig2.data, (hexVal d).isSome = true := by
      intro d hd
      rw [hdata] at hd
      rcases List.mem_or_eq_of_mem_set hd with h | h
      · exact List.all_eq_true.mp hhex.1 d h
      · subst h
        exact hcsome
    have hdec : hexDecodeList (hmac id.sharedSecret (signingString (toString t0)
        (jsToUpper method) (pathOnly path) (sha bodyStr))).data ≠
        hexDecodeList sig2.data := by
      intro he
      apply hmapne
      exact (hexDecodeList_map_eq _ sig2.data hlen2.symm hhex.2
        (List.all_eq_true.mp hhex.1) hall2 he).symm
    have hsf : safeEqualHex (hmac id.sharedSecret (signingString (toString t0)
        (jsToUpper method) (pathOnly path) (sha bodyStr))) sig2 = false := by
      cases hq : safeEqualHex (hmac id.sharedSecret (signingString (toString t0)
          (jsToUpper method) (pathOnly path) (sha bodyStr))) sig2 with
      | false => rfl
      | true => exact absurd ((safeEqualHex_eq_true_iff _ _).mp hq) hdec
    simp [mkSignedRequest, agentSignedHeaders, hmacAuthHook, hpath, hts, hle, hm, hsf]
  · intro i c bh2 hi hc hdata
    have hne : sha bodyStr ≠ bh2 := by
      intro he
      have hd : (sha bodyStr).data = (sha bodyStr).data.set i c := by
        conv_lhs => rw [he, hdata]
      exact set_ne_self hi hc hd.symm
    simp [mkSignedRequest, agentSignedHeaders, hmacAuthHook, hpath, hts, hle, hne]
  · intro body2 hb
    simp [mkSignedRequest, agentSignedHeaders, hmacAuthHook, hpath, hts, hle, hb]

theorem hmac_tamper_rejection_witness :
    hmacAuthHook (fun s => if s = "" then "aa" else "bb") (fun _ _ => "ab")
      (some ⟨"n", "s"⟩) 1000
      { mkSignedRequest (fun s => if s = "" then "aa" else "bb") (fun _ _ => "ab")
          ⟨"n", "s"⟩ 1000 "GET" "/x" "" with sigHeader := some "ac" } =
      .badSignature ∧
    hmacAuthHook (fun s => if s = "" then "aa" else "bb") (fun _ _ => "ab")
      (some ⟨"n", "s"⟩) 1000
      { mkSignedRequest (fun s => if s = "" then "aa" else "bb") (fun _ _ => "ab")
          ⟨"n", "s"⟩ 1000 "GET" "/x" "" with bodyHashHeader := some "ba" } =
      .bodyHashMismatch ∧
    hmacAuthHook (fun s => if s = "" then "aa" else "bb") (fun _ _ => "ab")
      (some ⟨"n", "s"⟩) 1000
      { mkSignedRequest (fun s => if s = "" then "aa" else "bb") (fun _ _ => "ab")
          ⟨"n", "s"⟩ 1000 "GET" "/x" "" with body := "zz" } =
      .bodyHashMismatch := by
  refine ⟨?_, ?_, ?_⟩
  · exact (hmac_tamper_rejection (fun s => if s = "" then "aa" else "bb")
      (fun _ _ => "ab") ⟨"n", "s"⟩ 1000 1000 "GET" "/x" "" (by decide) (by decide)
      (by decide) (by decide)).1 1 'c' "ac" (by decide) (by decide) (by decide)
      (by decide) (by decide)
  · exact (hmac_tamper_rejection (fun s => if s = "" then "aa" else "bb")
      (fun _ _ => "ab") ⟨"n", "s"⟩ 1000 1000 "GET" "/x" "" (by decide) (by decide)
      (by decide) (by decide)).2.1 0 'b' "ba" (by decide) (by decide) (by decide)
  · exact (hmac_tamper_rejection (fun s => if s = "" then "aa" else "bb")
      (fun _ _ => "ab") ⟨"n", "s"⟩ 1000 1000 "GET" "/x" "" (by decide) (by decide)
      (by decide) (by decide)).2.2 "zz" (by decide)

/-- C1 counterexample: flipping the single hex character `b` of the
`X-Signature` header to `B` — a different character, still a hex digit —
leaves the request *accepted*, because `safeEqualHex` decodes both sides as
hex bytes (`Buffer.from(s, "hex")` is case-insensitive) before comparing.
The claim "flipping any single hex character … never a false accept" is
therefore false as stated. -/
theorem hmac_tamper_case_flip_accepted :
    hmacAuthHook (fun s => if s = "" then "aa" else "bb") (fun _ _ => "ab")
      (some ⟨"n", "s"⟩) 1000
      { mkSignedRequest (fun s => if s = "" then "aa" else "bb") (fun _ _ => "ab")
          ⟨"n", "s"⟩ 1000 "GET" "/x" "" with sigHeader := some "aB" } = .ok ∧
    (mkSignedRequest (fun s => if s = "" then "aa" else "bb") (fun _ _ => "ab")
      ⟨"n", "s"⟩ 1000 "GET" "/x" "").sigHeader = some "ab" ∧
    "aB".data = "ab".data.set 1 'B' ∧
    'B' ≠ 'b' ∧
    (hexVal 'B').isSome = true := by decide

end Nestium
